import Mathlib

/-!
Verification of the QTextPad document-state and undo-coordination engine
(qtextpadwindow.cpp) against its natural-language specification.

The source is shallowly embedded: the window's mutable fields become a
WindowState record, Qt collaborators (file system, codec registry, file-type
detector, syntax repository, dialog answers) become an Env record of abstract
functions, and each member function of QTextPadWindow becomes a Lean function
from WindowState to WindowState (plus a success flag and an event trace where
the source shows dialogs or calls collaborators in a fixed order).
-/

/- ## External collaborator values -/

/-- A resolved text codec (QTextCodec), identified by its canonical name. -/
structure Codec where
  name : String
deriving DecidableEq, Repr

/-- A syntax definition (KSyntaxHighlighting::Definition): a name plus the
isValid flag used throughout qtextpadwindow.cpp. -/
structure SyntaxDef where
  name : String
  isValid : Bool
deriving DecidableEq, Repr

/-- SyntaxTextEdit::nullSyntax(): the invalid definition denoting plain text. -/
def nullSyntaxDef : SyntaxDef := ⟨"", false⟩

/-- Line ending modes, qtextpadwindow.cpp lines 291-299 (CROnly, LFOnly, CRLF). -/
inductive LineEndingMode
  | CROnly
  | LFOnly
  | CRLF
deriving DecidableEq, Repr

/-- A file as seen through QFile: its reported size (QFile::size(), queried as
file metadata) and its byte content (QFile::read streams it). -/
structure FileData where
  size : Nat
  bytes : List Nat
deriving DecidableEq, Repr

/-- FileDetection::detect result: line-ending guess, codec guess, BOM offset. -/
structure DetectResult where
  lineEndings : LineEndingMode
  textCodec : Codec
  bomOffset : Nat
deriving DecidableEq, Repr

/-- The three answers to the save prompt (QMessageBox Yes / No / Cancel),
qtextpadwindow.cpp lines 590-596. -/
inductive SaveResponse
  | yes
  | no
  | cancel
deriving DecidableEq, Repr

/-- The external collaborators of the window, fixed for a run: the file
system, KCharsets::codecForName (none encodes the ok=false flag),
FileDetection::detect, the streaming decoder (modelled on the whole
remainder after the BOM; the source decodes DECODE_BLOCK_SIZE chunks through
one stateful QTextDecoder, which is semantically the same text),
FileDetection::definitionForFileMagic, Repository::definitionForFileName,
and the user's dialog answers. -/
structure Env where
  fs : String → Option FileData
  codecForName : String → Option Codec
  detect : List Nat → String → DetectResult
  decode : Codec → List Nat → String
  definitionForFileMagic : String → SyntaxDef
  definitionForFileName : String → SyntaxDef
  largeFileConfirm : Bool
  savePromptResponse : SaveResponse
  saveFileDialog : String

/- ## Command History -/

/-- Modelled from the spec: the commands of undocommands.cpp (not among the
provided sources). A closed union: an opaque text-edit command wrapping one
Text Buffer change, or a metadata command carrying old and new encoding or
old and new line-ending mode (spec sections 3 and 4.2). -/
inductive UndoCmd
  | textEdit (editId : Nat)
  | encodingChange (oldName newName : String)
  | lineEndingChange (oldMode newMode : LineEndingMode)
deriving DecidableEq, Repr

/-- Modelled from the spec: the Command History (QUndoStack, an external
collaborator; spec section 4.2): an ordered command sequence, a current
index, and a clean index. -/
structure UndoHistory where
  commands : List UndoCmd
  index : Nat
  cleanIndex : Nat
deriving DecidableEq, Repr

/-- Modelled from the spec: push truncates the commands after the current
index, appends the new command, and advances the current index (spec
section 4.2; the command's execution is applied at the window level, in
addUndoCommand below). -/
def pushHistory (c : UndoCmd) (h : UndoHistory) : UndoHistory :=
  { commands := h.commands.take h.index ++ [c]
    index := h.index + 1
    cleanIndex := h.cleanIndex }

/-- Modelled from the spec: clear() empties the sequence and resets both
indices to 0 (spec section 4.2). -/
def clearHistory (_h : UndoHistory) : UndoHistory := ⟨[], 0, 0⟩

/-- Modelled from the spec: markClean / QUndoStack::setClean sets the clean
index to the current index (spec section 4.2). -/
def markClean (h : UndoHistory) : UndoHistory := { h with cleanIndex := h.index }

/-- Modelled from the spec: the history is clean iff the current index equals
the clean index (spec section 3: dirty == (current index != clean index)). -/
def UndoHistory.isClean (h : UndoHistory) : Bool := h.index == h.cleanIndex

/- ## Window state -/

/-- The mutable fields of QTextPadWindow that the document-state engine
touches: the editor buffer content and the buffer's native undo/redo stacks
(entries opaque), m_textEncoding plus the encoding status-button text,
m_lineEndingMode plus the CRLF status-label text, the current syntax
definition plus the syntax status-button text, m_openFilename (empty means a
never-saved document), m_documentTitle, the custom undo stack m_undoStack,
the reload action's enabled flag, and the window title. The menu checkmark
bookkeeping in the source setters iterates UI action groups reflecting the
same values and is not modelled separately. -/
structure WindowState where
  editorContent : String
  editorUndoStack : List Nat
  editorRedoStack : List Nat
  textEncoding : String
  encodingLabel : String
  lineEndingMode : LineEndingMode
  crlfLabel : String
  syntaxDef : SyntaxDef
  syntaxLabel : String
  openFilename : String
  documentTitle : String
  undoStack : UndoHistory
  reloadEnabled : Bool
  windowTitle : String
deriving DecidableEq, Repr

/-- Observable steps of the load/save/prompt pipelines, recorded in source
statement order so that the spec's ordering claims are statable. -/
inductive Event
  | evOpenError
  | evLargeFileWarning
  | evSetLineEnding (mode : LineEndingMode)
  | evSetEncoding (name : String)
  | evEditorClear
  | evSetSyntax (d : SyntaxDef)
  | evSetContent (text : String)
  | evClearEditorUndoRedo
  | evClearHistory
  | evMarkClean
  | evSavePrompt
  | evSaveDocumentCalled
deriving DecidableEq, Repr

/-- Event a occurs at a strictly earlier position than event b in the trace
(first matching positions are not required: any witnessing pair). -/
def eventBefore (a b : Event) (es : List Event) : Prop :=
  ∃ i : Fin es.length, ∃ j : Fin es.length,
    i.val < j.val ∧ es.get i = a ∧ es.get j = b

instance (a b : Event) (es : List Event) : Decidable (eventBefore a b es) := by
  unfold eventBefore; infer_instance

/- ## Setters (qtextpadwindow.cpp lines 397-495) -/

/-- QTextPadWindow::setSyntax, lines 397-413: stores the definition and sets
the syntax button text to the definition's name, or "Plain Text" when the
definition is invalid. -/
def setSyntax (d : SyntaxDef) (s : WindowState) : WindowState :=
  { s with syntaxDef := d
           syntaxLabel := if d.isValid then d.name else "Plain Text" }

/-- QTextPadWindow::setEncoding, lines 429-456: records the requested codec
name unconditionally in m_textEncoding; if KCharsets cannot resolve the
name, the encoding button shows an Invalid marker, otherwise the passed
name itself. -/
def setEncoding (env : Env) (codecName : String) (s : WindowState) : WindowState :=
  { s with textEncoding := codecName
           encodingLabel :=
             match env.codecForName codecName with
             | none => "Invalid (" ++ codecName ++ ")"
             | some _ => codecName }

/-- QTextPadWindow::setLineEndingMode, lines 472-495: stores the mode and
updates the CRLF status label. -/
def setLineEndingMode (mode : LineEndingMode) (s : WindowState) : WindowState :=
  { s with lineEndingMode := mode
           crlfLabel :=
             match mode with
             | LineEndingMode.CROnly => "CR"
             | LineEndingMode.LFOnly => "LF"
             | LineEndingMode.CRLF => "CRLF" }

/-- QTextPadWindow::isDocumentModified, lines 572-575: the negation of the
undo stack's clean flag. -/
def isDocumentModified (s : WindowState) : Bool := !s.undoStack.isClean

/-- QTextPadWindow::updateTitle, lines 727-734: document title, an n-dash,
the application name, and a leading star when modified. -/
def updateTitle (s : WindowState) : WindowState :=
  let title := s.documentTitle ++ " – qtextpad"
  { s with windowTitle := if isDocumentModified s then "* " ++ title else title }

/-- QFileInfo::fileName on the stored path: the component after the last
slash (the only separator exercised by this model). -/
def baseName (path : String) : String := (path.splitOn "/").getLastD ""

/- ## Undo command execution and the change entry points -/

/-- Modelled from the spec: executing a command (QUndoCommand::redo at push
time; undocommands.cpp is not among the provided sources). A metadata
command applies its new value through the corresponding setter (spec
section 4.1: pushing is equivalent to calling setEncoding(new)); a
text-edit command delegates to the Text Buffer's own machinery, opaque to
this model. -/
def applyCommand (env : Env) (c : UndoCmd) (s : WindowState) : WindowState :=
  match c with
  | UndoCmd.textEdit _ => s
  | UndoCmd.encodingChange _ newName => setEncoding env newName s
  | UndoCmd.lineEndingChange _ newMode => setLineEndingMode newMode s

/-- QTextPadWindow::addUndoCommand, lines 577-580: m_undoStack->push(command),
which executes the command and records it. -/
def addUndoCommand (env : Env) (c : UndoCmd) (s : WindowState) : WindowState :=
  let s1 := applyCommand env c s
  { s1 with undoStack := pushHistory c s1.undoStack }

/-- QTextPadWindow::changeEncoding, lines 826-835: with no open file the
encoding is set directly (no undo record); otherwise a ChangeEncodingCommand
capturing the old and new encoding is pushed. -/
def changeEncoding (env : Env) (encoding : String) (s : WindowState) : WindowState :=
  if s.openFilename.isEmpty then
    setEncoding env encoding s
  else
    addUndoCommand env (UndoCmd.encodingChange s.textEncoding encoding) s

/-- QTextPadWindow::changeLineEndingMode, lines 837-846: symmetric to
changeEncoding. -/
def changeLineEndingMode (env : Env) (mode : LineEndingMode) (s : WindowState) : WindowState :=
  if s.openFilename.isEmpty then
    setLineEndingMode mode s
  else
    addUndoCommand env (UndoCmd.lineEndingChange s.lineEndingMode mode) s

/- ## Load pipeline (qtextpadwindow.cpp lines 503-570) -/

def LARGE_FILE_SIZE : Nat := 10 * 1024 * 1024

def DETECTION_SIZE : Nat := 1 * 1024

def DECODE_BLOCK_SIZE : Nat := 16 * 1024

/-- Lines 523-534: resolve the effective codec. A non-empty manual encoding
that KCharsets resolves wins; otherwise (empty, or resolution failed with a
debug message) the detector's guessed codec is used. -/
def effectiveCodec (env : Env) (textEncoding : String) (detect : DetectResult) : Codec :=
  match (if textEncoding.isEmpty then none else env.codecForName textEncoding) with
  | some c => c
  | none => detect.textCodec

/-- Lines 556-558: the syntax definition for the loaded file. The libmagic
(content) lookup is tried first; only when it is invalid is the
filename-based repository lookup consulted. -/
def resolvedDefinition (env : Env) (filename : String) : SyntaxDef :=
  let dMagic := env.definitionForFileMagic filename
  if dMagic.isValid then dMagic else env.definitionForFileName filename

/-- The result of loadDocumentFrom: the returned bool, the window state, and
the recorded event trace. -/
structure LoadResult where
  ok : Bool
  state : WindowState
  events : List Event
deriving Repr

/-- Lines 520-569 of QTextPadWindow::loadDocumentFrom, after the open and
large-file guards have passed: detect on the first DETECTION_SIZE bytes,
setLineEndingMode with the guess, resolve and apply the effective encoding,
decode the bytes after the BOM offset, clear the editor, set the null
syntax, set the decoded text as the new content, clear the buffer's native
undo/redo stacks, apply the resolved syntax definition when valid, record
the filename and title, clear the custom undo stack and mark it clean,
enable reload, and update the title. -/
def loadCore (env : Env) (filename textEncoding : String) (file : FileData)
    (s : WindowState) : LoadResult :=
  let detect := env.detect (file.bytes.take DETECTION_SIZE) filename
  let s1 := setLineEndingMode detect.lineEndings s
  let codec := effectiveCodec env textEncoding detect
  let s2 := setEncoding env codec.name s1
  let text := env.decode codec (file.bytes.drop detect.bomOffset)
  let s3 := setSyntax nullSyntaxDef { s2 with editorContent := "" }
  let s4 := { s3 with editorContent := text
                      editorUndoStack := []
                      editorRedoStack := [] }
  let dFinal := resolvedDefinition env filename
  let s5 := if dFinal.isValid then setSyntax dFinal s4 else s4
  let s6 := { s5 with openFilename := filename
                      documentTitle := baseName filename
                      undoStack := markClean (clearHistory s5.undoStack)
                      reloadEnabled := true }
  { ok := true
    state := updateTitle s6
    events :=
      [Event.evSetLineEnding detect.lineEndings, Event.evSetEncoding codec.name,
       Event.evEditorClear, Event.evSetSyntax nullSyntaxDef, Event.evSetContent text,
       Event.evClearEditorUndoRedo]
      ++ (if dFinal.isValid then [Event.evSetSyntax dFinal] else [])
      ++ [Event.evClearHistory, Event.evMarkClean] }

/-- QTextPadWindow::loadDocumentFrom, lines 503-570. A failed open reports an
error and leaves the state untouched; a file strictly larger than
LARGE_FILE_SIZE raises the confirmation dialog, and a declined dialog
aborts with the state untouched; otherwise the load pipeline runs. -/
def loadDocumentFrom (env : Env) (filename : String) (textEncoding : String)
    (s : WindowState) : LoadResult :=
  match env.fs filename with
  | none => ⟨false, s, [Event.evOpenError]⟩
  | some file =>
    if file.size > LARGE_FILE_SIZE ∧ env.largeFileConfirm = false then
      ⟨false, s, [Event.evLargeFileWarning]⟩
    else
      let r := loadCore env filename textEncoding file s
      { r with events :=
          (if file.size > LARGE_FILE_SIZE then [Event.evLargeFileWarning] else [])
          ++ r.events }

/- ## Save pipeline and prompts (qtextpadwindow.cpp lines 497-501, 587-695) -/

/-- QTextPadWindow::saveDocumentTo, lines 497-501, verbatim: an unimplemented
stub marked "TODO: Encode and save to file" that writes nothing and
returns true. -/
def saveDocumentTo (_filename : String) (_s : WindowState) : Bool := true

/-- Lines 634-643 and 651-660 (the common tail of saveDocument and
saveDocumentAs): on a successful saveDocumentTo, record the path, derive
the title, mark the undo stack clean, clear the buffer's native undo/redo
stacks, and update the title. -/
def finishSave (path : String) (s : WindowState) : Bool × WindowState :=
  if saveDocumentTo path s then
    (true, updateTitle
      { s with openFilename := path
               documentTitle := baseName path
               undoStack := markClean s.undoStack
               editorUndoStack := []
               editorRedoStack := [] })
  else
    (false, s)

/-- QTextPadWindow::saveDocument, lines 626-644: reuse m_openFilename, or ask
the save dialog when it is empty (an empty dialog answer cancels). -/
def saveDocument (env : Env) (s : WindowState) : Bool × WindowState :=
  if s.openFilename.isEmpty then
    if env.saveFileDialog.isEmpty then (false, s)
    else finishSave env.saveFileDialog s
  else
    finishSave s.openFilename s

/-- QTextPadWindow::saveDocumentAs, lines 646-661: always ask the save
dialog (an empty answer cancels). -/
def saveDocumentAs (env : Env) (s : WindowState) : Bool × WindowState :=
  if env.saveFileDialog.isEmpty then (false, s)
  else finishSave env.saveFileDialog s

/-- QTextPadWindow::promptForSave, lines 587-599: only a modified document
raises the dialog; Cancel refuses, Yes runs saveDocument and propagates its
result, No (and an unmodified document) proceed. -/
def promptForSave (env : Env) (s : WindowState) : Bool × WindowState × List Event :=
  if isDocumentModified s then
    match env.savePromptResponse with
    | SaveResponse.cancel => (false, s, [Event.evSavePrompt])
    | SaveResponse.yes =>
      let r := saveDocument env s
      (r.1, r.2, [Event.evSavePrompt, Event.evSaveDocumentCalled])
    | SaveResponse.no => (true, s, [Event.evSavePrompt])
  else
    (true, s, [])

/-- Line 612-615: the platform default line ending; LFOnly outside _WIN32
(the model fixes the non-Windows build, matching the commentary at line
614). -/
def platformDefaultLineEnding : LineEndingMode := LineEndingMode.LFOnly

/-- Lines 606-623, the body of newDocument after the save prompt: clear the
buffer and its native undo stacks, null syntax, UTF-8 encoding, platform
line ending, no filename, Untitled, cleared and clean undo stack, reload
disabled, updated title. -/
def resetNewDocument (env : Env) (s : WindowState) : WindowState :=
  let s1 := { s with editorContent := ""
                     editorUndoStack := []
                     editorRedoStack := [] }
  let s2 := setSyntax nullSyntaxDef s1
  let s3 := setEncoding env "UTF-8" s2
  let s4 := setLineEndingMode platformDefaultLineEnding s3
  let s5 := { s4 with openFilename := ""
                      documentTitle := "Untitled"
                      undoStack := markClean (clearHistory s4.undoStack)
                      reloadEnabled := false }
  updateTitle s5

/-- QTextPadWindow::newDocument, lines 601-624: a refused save prompt aborts;
otherwise the document is reset. -/
def newDocument (env : Env) (s : WindowState) : WindowState :=
  match promptForSave env s with
  | (false, s1, _) => s1
  | (true, s1, _) => resetNewDocument env s1

/-- QTextPadWindow::closeEvent, lines 858-868: the close is accepted iff the
save prompt proceeds (the accepted branch additionally persists the window
geometry through the external settings collaborator). -/
def closeEvent (env : Env) (s : WindowState) : Bool × WindowState :=
  match promptForSave env s with
  | (false, s1, _) => (false, s1)
  | (true, s1, _) => (true, s1)

/- ## Concrete fixtures for witnesses -/

def utf8Codec : Codec := ⟨"UTF-8"⟩

/-- A collaborator environment for concrete runs: no files, a registry that
knows UTF-8 and ISO-8859-1, a detector that guesses LF / UTF-8 / no BOM, a
decoder that yields "hi", no syntax matches, and a user who confirms large
files, declines to save, and cancels save dialogs. -/
def baseEnv : Env :=
  { fs := fun _ => none
    codecForName := fun n => if n = "UTF-8" ∨ n = "ISO-8859-1" then some ⟨n⟩ else none
    detect := fun _ _ => ⟨LineEndingMode.LFOnly, utf8Codec, 0⟩
    decode := fun _ _ => "hi"
    definitionForFileMagic := fun _ => nullSyntaxDef
    definitionForFileName := fun _ => nullSyntaxDef
    largeFileConfirm := true
    savePromptResponse := SaveResponse.no
    saveFileDialog := "" }

/-- A freshly initialized, never-saved window (the state newDocument leaves
behind). -/
def initState : WindowState :=
  { editorContent := ""
    editorUndoStack := []
    editorRedoStack := []
    textEncoding := "UTF-8"
    encodingLabel := "UTF-8"
    lineEndingMode := LineEndingMode.LFOnly
    crlfLabel := "LF"
    syntaxDef := nullSyntaxDef
    syntaxLabel := "Plain Text"
    openFilename := ""
    documentTitle := "Untitled"
    undoStack := ⟨[], 0, 0⟩
    reloadEnabled := false
    windowTitle := "Untitled – qtextpad" }

/-- The same window after a file has been opened. -/
def namedState : WindowState :=
  { initState with openFilename := "dir/a.txt", documentTitle := "a.txt" }

/- ## Claims -/

/-- C1: every call to changeEncoding(name) or changeLineEndingMode(mode) on a
document with no file path mutates the field directly via setEncoding /
setLineEndingMode and leaves the Command History length unchanged; with a
file path set, it pushes exactly one metadata command (capturing the old and
new value) onto the Command History, which executes it immediately. -/
theorem claim1_change_ops_history (env : Env) (name : String) (mode : LineEndingMode)
    (s : WindowState) :
    (s.openFilename.isEmpty = true →
       changeEncoding env name s = setEncoding env name s ∧
       (changeEncoding env name s).undoStack.commands.length
           = s.undoStack.commands.length ∧
       changeLineEndingMode env mode s = setLineEndingMode mode s ∧
       (changeLineEndingMode env mode s).undoStack.commands.length
           = s.undoStack.commands.length) ∧
    (s.openFilename.isEmpty = false →
       (changeEncoding env name s).undoStack.commands
           = s.undoStack.commands.take s.undoStack.index
             ++ [UndoCmd.encodingChange s.textEncoding name] ∧
       (changeEncoding env name s).undoStack.index = s.undoStack.index + 1 ∧
       (changeEncoding env name s).textEncoding = name ∧
       (changeLineEndingMode env mode s).undoStack.commands
           = s.undoStack.commands.take s.undoStack.index
             ++ [UndoCmd.lineEndingChange s.lineEndingMode mode] ∧
       (changeLineEndingMode env mode s).undoStack.index = s.undoStack.index + 1 ∧
       (changeLineEndingMode env mode s).lineEndingMode = mode) := by
  constructor
  · intro h
    simp [changeEncoding, changeLineEndingMode, h, setEncoding, setLineEndingMode]
  · intro h
    simp [changeEncoding, changeLineEndingMode, h, addUndoCommand, applyCommand,
          pushHistory, setEncoding, setLineEndingMode]

/-- C1 witness: on the never-saved initState the encoding change is a direct
setEncoding call; on the opened namedState it advances the history index by
one. -/
theorem claim1_change_ops_history_witness :
    changeEncoding baseEnv "ISO-8859-1" initState
        = setEncoding baseEnv "ISO-8859-1" initState ∧
    (changeEncoding baseEnv "ISO-8859-1" namedState).undoStack.index
        = namedState.undoStack.index + 1 := by
  refine ⟨((claim1_change_ops_history baseEnv "ISO-8859-1" LineEndingMode.CRLF
              initState).1 (by decide)).1,
          ((claim1_change_ops_history baseEnv "ISO-8859-1" LineEndingMode.CRLF
              namedState).2 (by decide)).2.1⟩

/-- C7: setEncoding(name) never fails: every name is recorded as the current
encoding; an unresolvable name puts the status indicator into the Invalid
display state while a resolvable one shows the name itself; content, file
identity and the Command History are untouched either way. -/
theorem claim7_setEncoding_soft_failure (env : Env) (name : String) (s : WindowState) :
    (setEncoding env name s).textEncoding = name ∧
    (env.codecForName name = none →
       (setEncoding env name s).encodingLabel = "Invalid (" ++ name ++ ")") ∧
    (∀ c, env.codecForName name = some c →
       (setEncoding env name s).encodingLabel = name) ∧
    (setEncoding env name s).editorContent = s.editorContent ∧
    (setEncoding env name s).openFilename = s.openFilename ∧
    (setEncoding env name s).undoStack = s.undoStack := by
  refine ⟨rfl, fun h => ?_, fun c h => ?_, rfl, rfl, rfl⟩
  · simp [setEncoding, h]
  · simp [setEncoding, h]

/-- C7 witness: the unresolvable name "EBCDIC-FANTASY" is still recorded and
displayed as invalid. -/
theorem claim7_setEncoding_soft_failure_witness :
    (setEncoding baseEnv "EBCDIC-FANTASY" initState).textEncoding = "EBCDIC-FANTASY" ∧
    (setEncoding baseEnv "EBCDIC-FANTASY" initState).encodingLabel
        = "Invalid (EBCDIC-FANTASY)" := by
  refine ⟨(claim7_setEncoding_soft_failure baseEnv "EBCDIC-FANTASY" initState).1, ?_⟩
  exact (claim7_setEncoding_soft_failure baseEnv "EBCDIC-FANTASY" initState).2.1 (by decide)

/- ## Helper lemmas on the load pipeline -/

/-- When the open succeeds and the large-file gate passes, loadDocumentFrom is
the core pipeline, with the warning event prepended when the dialog was
shown and confirmed. -/
theorem loadDocumentFrom_success (env : Env) (fn enc : String) (file : FileData)
    (s : WindowState) (hf : env.fs fn = some file)
    (hgate : ¬(file.size > LARGE_FILE_SIZE ∧ env.largeFileConfirm = false)) :
    loadDocumentFrom env fn enc s =
      { loadCore env fn enc file s with
          events :=
            (if file.size > LARGE_FILE_SIZE then [Event.evLargeFileWarning] else [])
            ++ (loadCore env fn enc file s).events } := by
  simp only [loadDocumentFrom, hf]
  rw [if_neg hgate]

theorem loadCore_ok (env : Env) (fn enc : String) (file : FileData) (s : WindowState) :
    (loadCore env fn enc file s).ok = true := by
  simp only [loadCore]

theorem loadCore_undoStack (env : Env) (fn enc : String) (file : FileData)
    (s : WindowState) :
    (loadCore env fn enc file s).state.undoStack = ⟨[], 0, 0⟩ := by
  simp only [loadCore, updateTitle, setSyntax, setEncoding, setLineEndingMode,
             markClean, clearHistory]

theorem loadCore_content (env : Env) (fn enc : String) (file : FileData)
    (s : WindowState) :
    (loadCore env fn enc file s).state.editorContent
      = env.decode (effectiveCodec env enc (env.detect (file.bytes.take DETECTION_SIZE) fn))
          (file.bytes.drop (env.detect (file.bytes.take DETECTION_SIZE) fn).bomOffset) := by
  simp only [loadCore, updateTitle, setSyntax, setEncoding, setLineEndingMode]
  split <;> rfl

theorem loadCore_textEncoding (env : Env) (fn enc : String) (file : FileData)
    (s : WindowState) :
    (loadCore env fn enc file s).state.textEncoding
      = (effectiveCodec env enc (env.detect (file.bytes.take DETECTION_SIZE) fn)).name := by
  simp only [loadCore, updateTitle, setSyntax, setEncoding, setLineEndingMode]
  split <;> rfl

theorem loadCore_lineEndingMode (env : Env) (fn enc : String) (file : FileData)
    (s : WindowState) :
    (loadCore env fn enc file s).state.lineEndingMode
      = (env.detect (file.bytes.take DETECTION_SIZE) fn).lineEndings := by
  simp only [loadCore, updateTitle, setSyntax, setEncoding, setLineEndingMode]
  split <;> rfl

theorem loadCore_syntaxDef (env : Env) (fn enc : String) (file : FileData)
    (s : WindowState) :
    (loadCore env fn enc file s).state.syntaxDef
      = (if (resolvedDefinition env fn).isValid then resolvedDefinition env fn
         else nullSyntaxDef) := by
  simp only [loadCore, updateTitle, setSyntax, setEncoding, setLineEndingMode]
  split <;> simp_all

theorem loadCore_events (env : Env) (fn enc : String) (file : FileData)
    (s : WindowState) :
    (loadCore env fn enc file s).events
      = [Event.evSetLineEnding (env.detect (file.bytes.take DETECTION_SIZE) fn).lineEndings,
         Event.evSetEncoding
           (effectiveCodec env enc (env.detect (file.bytes.take DETECTION_SIZE) fn)).name,
         Event.evEditorClear, Event.evSetSyntax nullSyntaxDef,
         Event.evSetContent
           (env.decode (effectiveCodec env enc (env.detect (file.bytes.take DETECTION_SIZE) fn))
             (file.bytes.drop (env.detect (file.bytes.take DETECTION_SIZE) fn).bomOffset)),
         Event.evClearEditorUndoRedo]
        ++ (if (resolvedDefinition env fn).isValid
            then [Event.evSetSyntax (resolvedDefinition env fn)] else [])
        ++ [Event.evClearHistory, Event.evMarkClean] := by
  simp only [loadCore]

theorem loadCore_no_warning (env : Env) (fn enc : String) (file : FileData)
    (s : WindowState) :
    Event.evLargeFileWarning ∉ (loadCore env fn enc file s).events := by
  rw [loadCore_events]
  split <;> simp

/- ## Helper lemmas on event ordering -/

theorem eventBefore_cons (a b e : Event) (l : List Event)
    (h : eventBefore a b l) : eventBefore a b (e :: l) := by
  obtain ⟨i, j, hij, ha, hb⟩ := h
  refine ⟨⟨i.val + 1, Nat.succ_lt_succ i.isLt⟩,
          ⟨j.val + 1, Nat.succ_lt_succ j.isLt⟩,
          Nat.succ_lt_succ hij, ?_, ?_⟩
  · exact ha
  · exact hb

theorem state_events_update (r : LoadResult) (es : List Event) :
    ({ r with events := es } : LoadResult).state = r.state := rfl

theorem events_events_update (r : LoadResult) (es : List Event) :
    ({ r with events := es } : LoadResult).events = es := rfl

theorem ok_events_update (r : LoadResult) (es : List Event) :
    ({ r with events := es } : LoadResult).ok = r.ok := rfl

/-- In the core pipeline's trace, the null-syntax step precedes the
content-replacement step. -/
theorem eventBefore_core (env : Env) (fn enc : String) (file : FileData) (s : WindowState) :
    eventBefore (Event.evSetSyntax nullSyntaxDef)
      (Event.evSetContent
        (env.decode (effectiveCodec env enc (env.detect (file.bytes.take DETECTION_SIZE) fn))
          (file.bytes.drop (env.detect (file.bytes.take DETECTION_SIZE) fn).bomOffset)))
      (loadCore env fn enc file s).events := by
  rw [loadCore_events]
  by_cases hv : (resolvedDefinition env fn).isValid
  · simp only [if_pos hv, List.cons_append, List.nil_append]
    exact ⟨⟨3, by simp⟩, ⟨4, by simp⟩, (by omega : (3 : Nat) < 4), rfl, rfl⟩
  · simp only [if_neg hv, List.cons_append, List.nil_append]
    exact ⟨⟨3, by simp⟩, ⟨4, by simp⟩, (by omega : (3 : Nat) < 4), rfl, rfl⟩

/-- C2: for every document state, a successful loadDocumentFrom yields a
Command History of length 0 that is marked clean, isDocumentModified()
returns false, and the trace shows the syntax cleared to none strictly
before the buffer content is replaced wholesale with the loaded text. -/
theorem claim2_load_resets_history (env : Env) (fn enc : String) (s : WindowState)
    (hok : (loadDocumentFrom env fn enc s).ok = true) :
    (loadDocumentFrom env fn enc s).state.undoStack.commands = [] ∧
    (loadDocumentFrom env fn enc s).state.undoStack.index = 0 ∧
    (loadDocumentFrom env fn enc s).state.undoStack.cleanIndex = 0 ∧
    isDocumentModified (loadDocumentFrom env fn enc s).state = false ∧
    eventBefore (Event.evSetSyntax nullSyntaxDef)
      (Event.evSetContent (loadDocumentFrom env fn enc s).state.editorContent)
      (loadDocumentFrom env fn enc s).events := by
  rcases hfs : env.fs fn with _ | file
  · simp only [loadDocumentFrom, hfs] at hok
    exact absurd hok Bool.false_ne_true
  · by_cases hgate : file.size > LARGE_FILE_SIZE ∧ env.largeFileConfirm = false
    · simp only [loadDocumentFrom, hfs, if_pos hgate] at hok
      exact absurd hok Bool.false_ne_true
    · rw [loadDocumentFrom_success env fn enc file s hfs hgate]
      refine ⟨?_, ?_, ?_, ?_, ?_⟩
      · simp [state_events_update, loadCore_undoStack]
      · simp [state_events_update, loadCore_undoStack]
      · simp [state_events_update, loadCore_undoStack]
      · simp [state_events_update, isDocumentModified, UndoHistory.isClean,
              loadCore_undoStack]
      · rw [state_events_update, events_events_update, loadCore_content]
        by_cases hL : file.size > LARGE_FILE_SIZE
        · rw [if_pos hL, List.singleton_append]
          exact eventBefore_cons _ _ _ _ (eventBefore_core env fn enc file s)
        · rw [if_neg hL, List.nil_append]
          exact eventBefore_core env fn enc file s

/-- An environment holding one small file named a.txt (its two bytes decode,
through the fixture decoder, to the text "hi"). -/
def loadEnv : Env :=
  { baseEnv with fs := fun n => if n = "a.txt" then some ⟨2, [104, 105]⟩ else none }

/-- An opened document carrying two metadata commands in its history, none of
them undone, with the clean index still at 0 (a dirty document). -/
def dirtyState : WindowState :=
  { namedState with
      undoStack :=
        ⟨[UndoCmd.encodingChange "UTF-8" "ISO-8859-1",
          UndoCmd.lineEndingChange LineEndingMode.LFOnly LineEndingMode.CRLF], 2, 0⟩ }

/-- C2 witness: loading a.txt over a dirty two-command history succeeds and
leaves an unmodified document with an empty history. -/
theorem claim2_load_resets_history_witness :
    (loadDocumentFrom loadEnv "a.txt" "" dirtyState).ok = true ∧
    (loadDocumentFrom loadEnv "a.txt" "" dirtyState).state.undoStack.commands = [] ∧
    isDocumentModified (loadDocumentFrom loadEnv "a.txt" "" dirtyState).state = false := by
  have h := claim2_load_resets_history loadEnv "a.txt" "" dirtyState (by decide)
  exact ⟨by decide, h.1, h.2.2.2.1⟩

/-- C3: in loadDocumentFrom(filename, textEncoding), the effective codec is
the one resolved from textEncoding when that is non-empty and names a known
codec; when textEncoding is empty or fails resolution, the Detector's
guessed codec is used; either way the resulting codec's name is applied via
setEncoding (it ends up in m_textEncoding and the trace carries the
setEncoding step with that name). -/
theorem claim3_effective_encoding (env : Env) (fn enc : String) (file : FileData)
    (s : WindowState) (hf : env.fs fn = some file)
    (hgate : ¬(file.size > LARGE_FILE_SIZE ∧ env.largeFileConfirm = false)) :
    (∀ c, enc.isEmpty = false → env.codecForName enc = some c →
       (loadDocumentFrom env fn enc s).state.textEncoding = c.name ∧
       Event.evSetEncoding c.name ∈ (loadDocumentFrom env fn enc s).events) ∧
    ((enc.isEmpty = true ∨ env.codecForName enc = none) →
       (loadDocumentFrom env fn enc s).state.textEncoding
           = (env.detect (file.bytes.take DETECTION_SIZE) fn).textCodec.name ∧
       Event.evSetEncoding (env.detect (file.bytes.take DETECTION_SIZE) fn).textCodec.name
           ∈ (loadDocumentFrom env fn enc s).events) := by
  rw [loadDocumentFrom_success env fn enc file s hf hgate]
  constructor
  · intro c hne hsome
    have hcodec : effectiveCodec env enc (env.detect (file.bytes.take DETECTION_SIZE) fn) = c := by
      simp [effectiveCodec, hne, hsome]
    constructor
    · rw [state_events_update, loadCore_textEncoding, hcodec]
    · rw [events_events_update, loadCore_events, hcodec]
      simp
  · intro hmiss
    have hcodec : effectiveCodec env enc (env.detect (file.bytes.take DETECTION_SIZE) fn)
        = (env.detect (file.bytes.take DETECTION_SIZE) fn).textCodec := by
      rcases hmiss with he | hn
      · simp [effectiveCodec, he]
      · cases hb : enc.isEmpty <;> simp [effectiveCodec, hb, hn]
    constructor
    · rw [state_events_update, loadCore_textEncoding, hcodec]
    · rw [events_events_update, loadCore_events, hcodec]
      simp

/-- C3 witness: with the manual encoding ISO-8859-1 the load records that
codec; with an empty manual encoding it records the detector's UTF-8. -/
theorem claim3_effective_encoding_witness :
    (loadDocumentFrom loadEnv "a.txt" "ISO-8859-1" initState).state.textEncoding
        = "ISO-8859-1" ∧
    (loadDocumentFrom loadEnv "a.txt" "" initState).state.textEncoding = "UTF-8" := by
  refine ⟨((claim3_effective_encoding loadEnv "a.txt" "ISO-8859-1" ⟨2, [104, 105]⟩
             initState (by decide) (by decide)).1 ⟨"ISO-8859-1"⟩
             (by decide) (by decide)).1, ?_⟩
  exact ((claim3_effective_encoding loadEnv "a.txt" "" ⟨2, [104, 105]⟩
           initState (by decide) (by decide)).2 (Or.inl (by decide))).1

/-- C4: the large-file confirmation is shown iff the file size strictly
exceeds the 10 MiB threshold, and declining it aborts the load returning
false with the window state exactly as before. -/
theorem claim4_large_file_gate (env : Env) (fn enc : String) (file : FileData)
    (s : WindowState) (hf : env.fs fn = some file) :
    (file.size ≤ LARGE_FILE_SIZE →
       Event.evLargeFileWarning ∉ (loadDocumentFrom env fn enc s).events) ∧
    (file.size > LARGE_FILE_SIZE →
       Event.evLargeFileWarning ∈ (loadDocumentFrom env fn enc s).events) ∧
    (file.size > LARGE_FILE_SIZE → env.largeFileConfirm = false →
       loadDocumentFrom env fn enc s = ⟨false, s, [Event.evLargeFileWarning]⟩) := by
  refine ⟨?_, ?_, ?_⟩
  · intro hle
    have hL : ¬ file.size > LARGE_FILE_SIZE := not_lt.mpr hle
    rw [loadDocumentFrom_success env fn enc file s hf (by tauto),
        events_events_update, if_neg hL, List.nil_append]
    exact loadCore_no_warning env fn enc file s
  · intro hgt
    by_cases hc : env.largeFileConfirm = false
    · simp [loadDocumentFrom, hf, hgt, hc]
    · rw [loadDocumentFrom_success env fn enc file s hf (by tauto),
          events_events_update, if_pos hgt]
      simp
  · intro hgt hc
    simp [loadDocumentFrom, hf, hgt, hc]

/-- An environment whose file b.txt has size exactly 10 MiB, and c.txt one
byte more, served to a user who declines the large-file dialog. -/
def thresholdEnv : Env :=
  { baseEnv with
      fs := fun n =>
        if n = "b.txt" then some ⟨10 * 1024 * 1024, [104]⟩
        else if n = "c.txt" then some ⟨10 * 1024 * 1024 + 1, [104]⟩
        else none
      largeFileConfirm := false }

/-- C4 witness: at exactly 10 MiB no warning appears; one byte over, the
declined warning aborts the load with the state untouched. -/
theorem claim4_large_file_gate_witness :
    Event.evLargeFileWarning ∉ (loadDocumentFrom thresholdEnv "b.txt" "" initState).events ∧
    loadDocumentFrom thresholdEnv "c.txt" "" initState
        = ⟨false, initState, [Event.evLargeFileWarning]⟩ := by
  refine ⟨(claim4_large_file_gate thresholdEnv "b.txt" "" ⟨10 * 1024 * 1024, [104]⟩
             initState (by decide)).1 (by decide), ?_⟩
  exact (claim4_large_file_gate thresholdEnv "c.txt" "" ⟨10 * 1024 * 1024 + 1, [104]⟩
           initState (by decide)).2.2 (by decide) (by decide)

/-- C5 counterexample: in a concrete successful load (file a.txt, no manual
encoding, detector guessing LF and UTF-8) no setEncoding step precedes the
setLineEndingMode step in the trace: the source applies the detector's line
endings (line 521) before resolving and applying the encoding (line 535),
so the spec's step-4-before-step-5 order does not hold. -/
theorem claim5_counterexample :
    ¬ eventBefore (Event.evSetEncoding "UTF-8")
        (Event.evSetLineEnding LineEndingMode.LFOnly)
        (loadDocumentFrom loadEnv "a.txt" "" initState).events := by
  decide

/-- C5 amended: in every successful load, setLineEndingMode with the
Detector's guess is applied strictly before the effective encoding is
resolved and applied via setEncoding. -/
theorem claim5_line_ending_before_encoding (env : Env) (fn enc : String)
    (file : FileData) (s : WindowState) (hf : env.fs fn = some file)
    (hgate : ¬(file.size > LARGE_FILE_SIZE ∧ env.largeFileConfirm = false)) :
    eventBefore
      (Event.evSetLineEnding (env.detect (file.bytes.take DETECTION_SIZE) fn).lineEndings)
      (Event.evSetEncoding
        (effectiveCodec env enc (env.detect (file.bytes.take DETECTION_SIZE) fn)).name)
      (loadDocumentFrom env fn enc s).events := by
  rw [loadDocumentFrom_success env fn enc file s hf hgate, events_events_update]
  have hcore : eventBefore
      (Event.evSetLineEnding (env.detect (file.bytes.take DETECTION_SIZE) fn).lineEndings)
      (Event.evSetEncoding
        (effectiveCodec env enc (env.detect (file.bytes.take DETECTION_SIZE) fn)).name)
      (loadCore env fn enc file s).events := by
    rw [loadCore_events]
    by_cases hv : (resolvedDefinition env fn).isValid
    · simp only [if_pos hv, List.cons_append, List.nil_append]
      exact ⟨⟨0, by simp⟩, ⟨1, by simp⟩, (by omega : (0 : Nat) < 1), rfl, rfl⟩
    · simp only [if_neg hv, List.cons_append, List.nil_append]
      exact ⟨⟨0, by simp⟩, ⟨1, by simp⟩, (by omega : (0 : Nat) < 1), rfl, rfl⟩
  by_cases hL : file.size > LARGE_FILE_SIZE
  · rw [if_pos hL, List.singleton_append]
    exact eventBefore_cons _ _ _ _ hcore
  · rw [if_neg hL, List.nil_append]
    exact hcore

/-- C5 witness: in the concrete successful load of a.txt the line-ending step
precedes the encoding step. -/
theorem claim5_line_ending_before_encoding_witness :
    eventBefore (Event.evSetLineEnding LineEndingMode.LFOnly)
      (Event.evSetEncoding "UTF-8")
      (loadDocumentFrom loadEnv "a.txt" "" initState).events :=
  claim5_line_ending_before_encoding loadEnv "a.txt" "" ⟨2, [104, 105]⟩ initState
    (by decide) (by decide)

/-- C6: in loadDocumentFrom's syntax resolution, a file-magic (content) match
takes precedence over a filename-extension match; the filename lookup
becomes relevant only when the content lookup yields no valid definition
(when the content match is valid, the loaded state does not depend on the
filename lookup at all); when neither is valid the syntax stays the null
(plain text) definition. -/
theorem claim6_syntax_precedence (env : Env) (fn enc : String) (file : FileData)
    (s : WindowState) (hf : env.fs fn = some file)
    (hgate : ¬(file.size > LARGE_FILE_SIZE ∧ env.largeFileConfirm = false)) :
    ((env.definitionForFileMagic fn).isValid = true →
       (loadDocumentFrom env fn enc s).state.syntaxDef = env.definitionForFileMagic fn) ∧
    ((env.definitionForFileMagic fn).isValid = true → ∀ g,
       (loadDocumentFrom { env with definitionForFileName := g } fn enc s).state
         = (loadDocumentFrom env fn enc s).state) ∧
    ((env.definitionForFileMagic fn).isValid = false →
     (env.definitionForFileName fn).isValid = true →
       (loadDocumentFrom env fn enc s).state.syntaxDef = env.definitionForFileName fn) ∧
    ((env.definitionForFileMagic fn).isValid = false →
     (env.definitionForFileName fn).isValid = false →
       (loadDocumentFrom env fn enc s).state.syntaxDef = nullSyntaxDef) := by
  refine ⟨fun hm => ?_, fun hm g => ?_, fun hm hn => ?_, fun hm hn => ?_⟩
  · rw [loadDocumentFrom_success env fn enc file s hf hgate, state_events_update,
        loadCore_syntaxDef]
    simp [resolvedDefinition, hm]
  · rw [loadDocumentFrom_success env fn enc file s hf hgate,
        loadDocumentFrom_success { env with definitionForFileName := g } fn enc file s hf hgate,
        state_events_update, state_events_update]
    simp [loadCore, effectiveCodec, resolvedDefinition, hm, setSyntax, setEncoding,
          setLineEndingMode, updateTitle]
  · rw [loadDocumentFrom_success env fn enc file s hf hgate, state_events_update,
        loadCore_syntaxDef]
    simp [resolvedDefinition, hm, hn]
  · rw [loadDocumentFrom_success env fn enc file s hf hgate, state_events_update,
        loadCore_syntaxDef]
    simp [resolvedDefinition, hm, hn]

/-- loadEnv with a valid content-sniffing match (Python) and a competing,
different filename-extension match (Troff). -/
def magicEnv : Env :=
  { loadEnv with
      definitionForFileMagic := fun _ => ⟨"Python", true⟩
      definitionForFileName := fun _ => ⟨"Troff", true⟩ }

/-- loadEnv with no content-sniffing match and a valid filename match. -/
def extOnlyEnv : Env :=
  { loadEnv with definitionForFileName := fun _ => ⟨"Troff", true⟩ }

/-- C6 witness: with both lookups valid the content match (Python) wins; with
only the filename lookup valid it is used; with neither the syntax stays
null. -/
theorem claim6_syntax_precedence_witness :
    (loadDocumentFrom magicEnv "a.txt" "" initState).state.syntaxDef = ⟨"Python", true⟩ ∧
    (loadDocumentFrom extOnlyEnv "a.txt" "" initState).state.syntaxDef = ⟨"Troff", true⟩ ∧
    (loadDocumentFrom loadEnv "a.txt" "" initState).state.syntaxDef = nullSyntaxDef := by
  refine ⟨(claim6_syntax_precedence magicEnv "a.txt" "" ⟨2, [104, 105]⟩ initState
             (by decide) (by decide)).1 (by decide),
          ((claim6_syntax_precedence extOnlyEnv "a.txt" "" ⟨2, [104, 105]⟩ initState
             (by decide) (by decide)).2.2.1 (by decide) (by decide)),
          ((claim6_syntax_precedence loadEnv "a.txt" "" ⟨2, [104, 105]⟩ initState
             (by decide) (by decide)).2.2.2 (by decide) (by decide))⟩

/-- A document whose buffer holds "hello", opened from a.txt. -/
def helloState : WindowState :=
  { initState with
      editorContent := "hello"
      openFilename := "a.txt"
      documentTitle := "a.txt" }

/-- C8 evaluation: saveDocumentTo is the unimplemented stub of lines 497-501
(it writes nothing and reports success), so saving the buffer "hello" to
a.txt and loading a.txt back without an explicit encoding yields the file
system's pre-existing content "hi", not the saved buffer: the round trip
does not reproduce the buffer content. -/
theorem claim8_roundtrip_fails :
    saveDocumentTo "a.txt" helloState = true ∧
    (loadDocumentFrom loadEnv "a.txt" "" helloState).ok = true ∧
    (loadDocumentFrom loadEnv "a.txt" "" helloState).state.editorContent = "hi" ∧
    helloState.editorContent = "hello" := by
  refine ⟨rfl, by decide, by decide, rfl⟩

/-- C9: after every successful saveDocument() or saveDocumentAs(), besides
marking the Command History clean and updating the file path and the
displayed title, the Text Buffer's native undo and redo stacks are cleared. -/
theorem claim9_save_clears_native_undo (env : Env) (s : WindowState) :
    ((saveDocument env s).1 = true →
       (saveDocument env s).2.editorUndoStack = [] ∧
       (saveDocument env s).2.editorRedoStack = [] ∧
       (saveDocument env s).2.undoStack.isClean = true ∧
       (saveDocument env s).2.openFilename
           = (if s.openFilename.isEmpty then env.saveFileDialog else s.openFilename) ∧
       (saveDocument env s).2.documentTitle
           = baseName (if s.openFilename.isEmpty then env.saveFileDialog
                       else s.openFilename)) ∧
    ((saveDocumentAs env s).1 = true →
       (saveDocumentAs env s).2.editorUndoStack = [] ∧
       (saveDocumentAs env s).2.editorRedoStack = [] ∧
       (saveDocumentAs env s).2.undoStack.isClean = true ∧
       (saveDocumentAs env s).2.openFilename = env.saveFileDialog ∧
       (saveDocumentAs env s).2.documentTitle = baseName env.saveFileDialog) := by
  constructor
  · intro hok
    by_cases hopen : s.openFilename.isEmpty
    · by_cases hdlg : env.saveFileDialog.isEmpty
      · simp [saveDocument, hopen, hdlg] at hok
      · simp [saveDocument, hopen, hdlg, finishSave, saveDocumentTo, updateTitle,
              markClean, UndoHistory.isClean]
    · simp [saveDocument, hopen, finishSave, saveDocumentTo, updateTitle,
            markClean, UndoHistory.isClean]
  · intro hok
    by_cases hdlg : env.saveFileDialog.isEmpty
    · simp [saveDocumentAs, hdlg] at hok
    · simp [saveDocumentAs, hdlg, finishSave, saveDocumentTo, updateTitle,
            markClean, UndoHistory.isClean]

/-- baseEnv with a save dialog answering b.txt. -/
def saveEnv : Env := { baseEnv with saveFileDialog := "b.txt" }

/-- A dirty document that also carries pending native buffer edits. -/
def editedState : WindowState :=
  { dirtyState with editorUndoStack := [1, 2], editorRedoStack := [3] }

/-- C9 witness: saving the edited document clears its native undo and redo
stacks and leaves the history clean. -/
theorem claim9_save_clears_native_undo_witness :
    (saveDocument saveEnv editedState).2.editorUndoStack = [] ∧
    (saveDocument saveEnv editedState).2.editorRedoStack = [] ∧
    (saveDocument saveEnv editedState).2.undoStack.isClean = true := by
  have h := (claim9_save_clears_native_undo saveEnv editedState).1 (by decide)
  exact ⟨h.1, h.2.1, h.2.2.1⟩

/-- C10: whenever isDocumentModified() is false, promptForSave() returns true
at once, with no dialog shown, no saveDocument call, and the state
untouched; consequently newDocument proceeds straight to its reset and a
window close is accepted with no further state change. -/
theorem claim10_clean_prompt (env : Env) (s : WindowState)
    (h : isDocumentModified s = false) :
    promptForSave env s = (true, s, []) ∧
    newDocument env s = resetNewDocument env s ∧
    closeEvent env s = (true, s) := by
  have hp : promptForSave env s = (true, s, []) := by
    simp [promptForSave, h]
  refine ⟨hp, ?_, ?_⟩
  · rw [newDocument, hp]
  · rw [closeEvent, hp]

/-- C10 witness: on the clean initial state the prompt proceeds silently. -/
theorem claim10_clean_prompt_witness :
    promptForSave baseEnv initState = (true, initState, []) :=
  (claim10_clean_prompt baseEnv initState (by decide)).1
